import Mathlib

/-!
Verification development for the clinical-dictation backend
(`backend/app/api.py`, `backend/app/auth.py`).

The Python source is shallowly embedded: pure functions become Lean
functions over `String`/`List`/`ℚ`; the stateful endpoints become explicit
state-passing functions; HTTP errors become `Except (Nat × String)` values
carrying the status code and detail message.  Floating point model
probabilities are embedded as rationals (the claims under study only
compare probabilities against constants, never exercise rounding of the
binary representation).  External dependencies (scikit-learn model,
Whisper, MongoDB, bcrypt, JWT, reportlab, Gemini) are embedded by their
interface contracts, as explained at each definition.

Python string helpers (`str.lower`, `str.strip`, substring test) are
re-implemented over `List Char` so that every definition reduces in the
kernel; they model the ASCII behaviour of the CPython originals, which is
the range exercised by the code (keyword tables and sentinel strings are
ASCII).
-/

/-- Model of CPython `str.lower` on a single character (ASCII range:
uppercase A..Z maps to a..z, everything else unchanged). -/
def pyLowerChar (c : Char) : Char :=
  if 65 ≤ c.toNat ∧ c.toNat ≤ 90 then Char.ofNat (c.toNat + 32) else c

/-- Model of CPython `str.lower` (character-wise). -/
def pyLower (s : String) : String :=
  ⟨s.data.map pyLowerChar⟩

/-- ASCII whitespace as recognised by CPython `str.strip` and the `\s`
regex class: space and the control characters 9..13. -/
def pyIsSpace (c : Char) : Bool :=
  c == ' ' || (9 ≤ c.toNat && c.toNat ≤ 13)

/-- Model of CPython `str.strip`: drop whitespace from both ends. -/
def pyStrip (s : String) : String :=
  ⟨((s.data.dropWhile pyIsSpace).reverse.dropWhile pyIsSpace).reverse⟩

/-- Does `hay` start with `needle`?  (List form, executable.) -/
def startsWithList : List Char → List Char → Bool
  | [], _ => true
  | _ :: _, [] => false
  | a :: as, b :: bs => a == b && startsWithList as bs

/-- Does `hay` contain `needle` as a contiguous substring?  Model of the
Python `needle in hay` test on strings. -/
def containsSubList (needle : List Char) : List Char → Bool
  | [] => startsWithList needle []
  | c :: rest => startsWithList needle (c :: rest) || containsSubList needle rest

/-- Python `needle in hay` on strings. -/
def strContains (hay needle : String) : Bool :=
  containsSubList needle.data hay.data

/-- Python `" ".join(parts)`. -/
def joinSpace : List String → String
  | [] => ""
  | [s] => s
  | s :: rest => s ++ " " ++ joinSpace rest

/-- `SYMPTOM_KEYWORDS` from `api.py`: the fixed vocabulary scanned over
the lower-cased transcript. -/
def SYMPTOM_KEYWORDS : List String :=
  ["fever", "cough", "headache", "fatigue", "nausea", "vomiting", "pain", "rash",
   "sore throat", "cold", "flu", "dizziness", "weakness", "sweating", "chills",
   "stomach", "chest pain", "shortness of breath", "itching", "swelling",
   "diarrhea", "constipation", "loss of appetite", "weight loss", "insomnia",
   "joint pain", "muscle pain", "back pain", "abdominal pain", "bleeding"]

/-- `STUB_TRANSCRIPT_MESSAGE` from `api.py`. -/
def STUB_TRANSCRIPT_MESSAGE : String :=
  "[Stub transcript: install faster-whisper and add audio]"

/-- The `\w` regex class, ASCII range: letters, digits, underscore. -/
def isWordChar (c : Char) : Bool :=
  c.isAlphanum || c == '_'

/-- Attempt to read `\s+(?:pain|ache)\b` at the head of `cs`; on success
return the remainder after the literal.  The `\s+` run is maximal, which
matches the regex engine: shrinking it would leave a whitespace character
where `p`/`a` is required. -/
def tryPainTail (cs : List Char) : Option (List Char) :=
  let sp := cs.takeWhile pyIsSpace
  let r := cs.dropWhile pyIsSpace
  if sp.isEmpty then none
  else
    match r with
    | 'p' :: 'a' :: 'i' :: 'n' :: rest =>
      match rest with
      | [] => some []
      | c :: _ => if isWordChar c then none else some rest
    | 'a' :: 'c' :: 'h' :: 'e' :: rest =>
      match rest with
      | [] => some []
      | c :: _ => if isWordChar c then none else some rest
    | _ => none

/-- Attempt to match `(\w+(?:\s+\w+)?)\s+(?:pain|ache)\b` at the head of
`cs` (the caller has already established the leading `\b`).  Returns the
captured group and the remainder after the whole match.  The greedy
optional group is tried first, mirroring the regex engine; the `\w+` and
`\s+` runs are maximal since shrinking them cannot lead to a match. -/
def tryMatchAt (cs : List Char) : Option (List Char × List Char) :=
  let w1 := cs.takeWhile isWordChar
  let r1 := cs.dropWhile isWordChar
  if w1.isEmpty then none
  else
    let s1 := r1.takeWhile pyIsSpace
    let r2 := r1.dropWhile pyIsSpace
    let w2 := r2.takeWhile isWordChar
    let r3 := r2.dropWhile isWordChar
    let attempt2 : Option (List Char × List Char) :=
      if s1.isEmpty || w2.isEmpty then none
      else
        match tryPainTail r3 with
        | some rest => some (w1 ++ s1 ++ w2, rest)
        | none => none
    match attempt2 with
    | some x => some x
    | none =>
      match tryPainTail r1 with
      | some rest => some (w1, rest)
      | none => none

/-- Scanner for `re.finditer(r"\b(\w+(?:\s+\w+)?)\s+(?:pain|ache)\b", text)`:
walk the text, try a match at every word boundary, and on success continue
after the match (non-overlapping, left to right).  On failure the whole
word run is skipped: interior positions fail the `\b` assertion.  `fuel`
bounds the recursion; every step consumes at least one character, so
`length + 1` fuel is always sufficient. -/
def painScanAux : Nat → Bool → List Char → List String
  | 0, _, _ => []
  | _ + 1, _, [] => []
  | fuel + 1, prevIsWord, c :: rest =>
    if !prevIsWord && isWordChar c then
      match tryMatchAt (c :: rest) with
      | some (g, after) =>
        (pyStrip ⟨g⟩ ++ " pain") :: painScanAux fuel true after
      | none =>
        painScanAux fuel true ((c :: rest).dropWhile isWordChar)
    else
      painScanAux fuel (isWordChar c) rest

/-- All strings added by the `"X pain" / "X ache"` regex loop in
`extract_symptoms_from_transcript`, in text order: for each match, the
captured group (stripped) with the literal suffix `" pain"` appended. -/
def painMatches (text : String) : List String :=
  painScanAux (text.data.length + 1) false text.data

/-- Deterministic core of `extract_symptoms_from_transcript`.

The Python function accumulates matches in a `set` and returns
`list(found)`; the *content* of that set is fully determined and this
function computes it, listing each element once, keywords in vocabulary
order followed by regex matches in text order (`List.dedup` keeps first
occurrences).  The iteration order of `list(found)` itself is left to the
nondeterministic relation `extract_mayReturn` below. -/
def extract_canonical (transcript : String) : List String :=
  if transcript == "" || pyStrip transcript == "" then []
  else if strContains transcript STUB_TRANSCRIPT_MESSAGE
          || pyStrip transcript == STUB_TRANSCRIPT_MESSAGE then []
  else
    let text := pyStrip (pyLower transcript)
    let kws := SYMPTOM_KEYWORDS.filter (fun kw => strContains text kw)
    let pats := painMatches text
    let found := (kws ++ pats).dedup
    if found.isEmpty then [⟨text.data.take 200⟩] else found

/-- Observable behaviour of `extract_symptoms_from_transcript`.

CPython iterates a `set` of strings in hash-table order, which depends on
the per-process hash seed (`PYTHONHASHSEED` randomisation): the function
may return any permutation of the matched-symptom set.  The empty and
fallback branches are deterministic, and permutation of `[]` or a
singleton forces equality, so a single `Perm` relation captures all three
branches. -/
def extract_mayReturn (transcript : String) (l : List String) : Prop :=
  l.Perm (extract_canonical transcript)

/-- HTTP error: status code and detail message (`HTTPException`). -/
abbrev Err := Nat × String

/-- Element of the `predictions` list built by `diagnosis_analyze`. -/
structure Prediction where
  disease : String
  confidence : ℚ
  is_edge_case : Bool
deriving DecidableEq, Repr

/-- Response of `POST /api/diagnosis/analyze`. -/
structure AnalyzeResponse where
  symptoms : List String
  predictions : List Prediction
  common : List String
  edge_cases : List String
deriving DecidableEq, Repr

/-- Interface contract of the pre-trained vectorizer/model pair as used by
the endpoints: either nothing is loaded, or `predict_proba` is available
and yields a probability per class, or only `predict` is available and
yields a single label, or inference raises an exception with a message.
The classes and probabilities are the values the scikit-learn artifact
would produce for the request under consideration. -/
inductive ModelOutcome where
  | absent
  | proba (classes : List String) (probs : List ℚ)
  | labelOnly (label : String)
  | failure (msg : String)

/-- Model of `probs.argsort()`: indices of `probs` sorted by ascending
probability.  numpy's default sort is not stable on ties; the claims
proved below are independent of tie order, so a deterministic stable sort
(structurally recursive, hence kernel-reducible) stands in for it. -/
def argsortAsc (probs : List ℚ) : List Nat :=
  (List.range probs.length).insertionSort
    (fun i j => probs.getD i 0 ≤ probs.getD j 0)

/-- Model of `probs.argsort()[-5:][::-1]`: the (up to) five
highest-probability class indices, descending. -/
def topIndices (probs : List ℚ) : List Nat :=
  (argsortAsc probs).reverse.take 5

/-- The `common` list computed by `diagnosis_analyze`: labels of the
non-edge predictions. -/
def commonOf (preds : List Prediction) : List String :=
  (preds.filter (fun p => !p.is_edge_case)).map (fun p => p.disease)

/-- The `edge_cases` list computed by `diagnosis_analyze`: labels of the
edge predictions. -/
def edgeCasesOf (preds : List Prediction) : List String :=
  (preds.filter (fun p => p.is_edge_case)).map (fun p => p.disease)

/-- The predictions list built by `diagnosis_analyze` in the
`predict_proba` branch: one entry per top index, flagged as edge case
exactly when the probability is below 0.3. -/
def analyzePreds (classes : List String) (probs : List ℚ) : List Prediction :=
  (topIndices probs).map (fun i =>
    ⟨classes.getD i "", probs.getD i 0, decide (probs.getD i 0 < mkRat 3 10)⟩)

/-- Core of `POST /api/diagnosis/analyze`, given the already-extracted
symptom list and the model outcome.  Mirrors `diagnosis_analyze`:
* no model or no vectorizer: the degenerate single-prediction response
  (not an error);
* `predict_proba` available: top-5 predictions with the 0.3 edge split;
* only `predict`: a single prediction with confidence 1.0;
* inference raised: HTTP 500 with the exception message. -/
def diagnosis_analyze (symptoms : List String) (m : ModelOutcome) :
    Except Err AnalyzeResponse :=
  match m with
  | .absent =>
    .ok ⟨symptoms, [⟨"Unknown (model not loaded)", 0, false⟩], [], []⟩
  | .proba classes probs =>
    let predictions := analyzePreds classes probs
    .ok ⟨symptoms, predictions, commonOf predictions, edgeCasesOf predictions⟩
  | .labelOnly label =>
    let predictions : List Prediction := [⟨label, 1, false⟩]
    .ok ⟨symptoms, predictions, commonOf predictions, edgeCasesOf predictions⟩
  | .failure msg => .error (500, "Analysis failed: " ++ msg)

/-- Round half to even, the behaviour of Python `round` on an exact value
(ties in the binary float representation aside, which the claims below do
not exercise). -/
def roundHalfEven (x : ℚ) : Int :=
  let f := ⌊x⌋
  let r := x - f
  if r < mkRat 1 2 then f
  else if mkRat 1 2 < r then f + 1
  else if f % 2 = 0 then f else f + 1

/-- Python `round(x, 2)`. -/
def round2 (q : ℚ) : ℚ :=
  mkRat (roundHalfEven (q * 100)) 100

/-- Entry of the `diagnosis_predictions` list in the patient-twin
response. -/
structure TwinPred where
  disease : String
  probability : ℚ
deriving DecidableEq, Repr

/-- The `top_prob` value computed by `generate_patient_twin`:
`probs[top_indices[0]] if len(top_indices) > 0 else 0`. -/
def topProbOf (probs : List ℚ) : ℚ :=
  match (topIndices probs).head? with
  | some i => probs.getD i 0
  | none => 0

/-- The `diagnosis_predictions` list of `generate_patient_twin` in the
`predict_proba` branch: among the top-5 indices, those with probability
strictly above 0.05, each with its probability rounded to 2 decimals. -/
def twinPreds (classes : List String) (probs : List ℚ) : List TwinPred :=
  ((topIndices probs).filter (fun i => decide (probs.getD i 0 > mkRat 1 20))).map
    (fun i => ⟨classes.getD i "", round2 (probs.getD i 0)⟩)

/-- The risk tier computed by `generate_patient_twin` in the
`predict_proba` branch, given the unrounded top probability and the
extracted symptom count.  HIGH is checked before MEDIUM. -/
def twinRisk (topProb : ℚ) (symptomCount : Nat) : String :=
  if topProb > mkRat 7 10 ∨ symptomCount ≥ 4 then "HIGH"
  else if topProb > mkRat 4 10 ∨ symptomCount ≥ 2 then "MEDIUM"
  else "LOW"

/-- Predictions-and-risk section of `generate_patient_twin`, given the
already-extracted symptom list and the model outcome.  `predictions`
starts as `[]` and `risk_score` as `"LOW"`; they are only updated inside
`if vectorizer and model and text_for_vec:` and only when the model
exposes `predict_proba` and inference does not raise (a raised exception
is caught and merely logged). -/
def generate_patient_twin (symptoms : List String) (m : ModelOutcome) :
    List TwinPred × String :=
  if joinSpace symptoms == "" then ([], "LOW")
  else
    match m with
    | .proba classes probs =>
      (twinPreds classes probs, twinRisk (topProbOf probs) symptoms.length)
    | _ => ([], "LOW")

/-- The risk function as asserted by the claim and spec section 4.3: a
function of the Prediction list's top confidence and the symptom count
alone, applied to every patient-twin request.  (Refinement comparator,
written from the claim's words; the code is `generate_patient_twin`.) -/
def risk_score_claimed (topConfidence : ℚ) (symptomCount : Nat) : String :=
  if topConfidence > mkRat 7 10 ∨ symptomCount ≥ 4 then "HIGH"
  else if topConfidence > mkRat 4 10 ∨ symptomCount ≥ 2 then "MEDIUM"
  else "LOW"

/-- Stored user document (`users` collection / `_memory_users` values):
built in `auth_signup`. -/
structure User where
  id : String
  name : String
  email : String
  hashed_password : String
  role : String
deriving DecidableEq, Repr

/-- Claim set signed into the JWT by `create_access_token`; the signed
token is modelled by its claims (the signature is an integrity wrapper
with no observable content of its own). -/
structure TokenClaims where
  sub : String
  email : String
  role : String
  name : String
deriving DecidableEq, Repr

/-- Model of `hash_password` in `auth.py` (bcrypt over a SHA-256
pre-hash).  Embedded by its interface contract: an injective one-way
encoding, here a tagged copy of the password. -/
def hash_password (password : String) : String :=
  "bcrypt$" ++ password

/-- Model of `verify_password` in `auth.py`: verification succeeds
exactly when the candidate is the password that produced the hash. -/
def verify_password (plain hashed : String) : Bool :=
  hashed == "bcrypt$" ++ plain

/-- `(email or "").strip().lower()`: email normalisation used by signup,
login and patient resolution. -/
def normEmail (email : String) : String :=
  pyLower (pyStrip email)

/-- MongoDB `find_one` on `users` with the case-insensitive
whole-string regex used by `auth_signup` and `auth_login`: first stored
user whose email lower-cases to `emailLower`.  The collection is
modelled as a list in insertion order (Mongo natural order). -/
def dbFindUserByEmail (users : List User) (emailLower : String) : Option User :=
  users.find? (fun u => pyLower u.email == emailLower)

/-- `_memory_users` lookup used by `auth_login`:
`next((u for e, u in _memory_users.items() if (e or "").strip().lower() == email_lower), None)`.
The dict is modelled as an association list in insertion order. -/
def memFindUserByEmail (musers : List (String × User)) (emailLower : String) :
    Option User :=
  (musers.find? (fun kv => normEmail kv.1 == emailLower)).map (fun kv => kv.2)

/-- `POST /api/auth/signup`, durable-store mode.  `freshId` stands for
the generated `uuid4`.  Returns the token claims (also the `user` dict of
the response, which carries the same fields) and the updated store. -/
def auth_signup_db (users : List User)
    (name email password role freshId : String) :
    Except Err (TokenClaims × List User) :=
  let norm := normEmail email
  if norm == "" then .error (400, "Email is required.")
  else if (dbFindUserByEmail users norm).isSome then
    .error (400, "Email already registered")
  else
    let doc : User := ⟨freshId, pyStrip name, norm, hash_password password, pyLower role⟩
    .ok (⟨freshId, doc.email, doc.role, doc.name⟩, users ++ [doc])

/-- `POST /api/auth/signup`, in-memory fallback mode: the duplicate check
scans the dict keys with the same normalised comparison, and the document
is stored under the normalised email key. -/
def auth_signup_mem (musers : List (String × User))
    (name email password role freshId : String) :
    Except Err (TokenClaims × List (String × User)) :=
  let norm := normEmail email
  if norm == "" then .error (400, "Email is required.")
  else if (musers.find? (fun kv => normEmail kv.1 == norm)).isSome then
    .error (400, "Email already registered")
  else
    let doc : User := ⟨freshId, pyStrip name, norm, hash_password password, pyLower role⟩
    .ok (⟨freshId, doc.email, doc.role, doc.name⟩, musers ++ [(norm, doc)])

/-- `POST /api/auth/login`, durable-store mode. -/
def auth_login_db (users : List User) (email password : String) :
    Except Err TokenClaims :=
  let emailLower := normEmail email
  match dbFindUserByEmail users emailLower with
  | none => .error (401, "Invalid email or password")
  | some u =>
    if verify_password password u.hashed_password then
      .ok ⟨u.id, u.email, u.role, u.name⟩
    else .error (401, "Invalid email or password")

/-- `POST /api/auth/login`, in-memory fallback mode. -/
def auth_login_mem (musers : List (String × User)) (email password : String) :
    Except Err TokenClaims :=
  let emailLower := normEmail email
  match memFindUserByEmail musers emailLower with
  | none => .error (401, "Invalid email or password")
  | some u =>
    if verify_password password u.hashed_password then
      .ok ⟨u.id, u.email, u.role, u.name⟩
    else .error (401, "Invalid email or password")

/-- `_resolve_patient_id_by_email`, durable-store mode: `find_one` with
`role == "patient"` and the case-insensitive email regex. -/
def resolve_patient_db (users : List User) (patient_email : String) :
    Except Err String :=
  let emailLower := normEmail patient_email
  if emailLower == "" then .error (400, "Patient email is required.")
  else
    match users.find? (fun u => u.role == "patient" && pyLower u.email == emailLower) with
    | some u => .ok u.id
    | none =>
      .error (400, "No patient found with that email. Patient must sign up first.")

/-- `_resolve_patient_id_by_email`, in-memory fallback mode: scan
`_memory_users.items()` for a normalised key match whose value has
`role.lower() == "patient"`. -/
def resolve_patient_mem (musers : List (String × User)) (patient_email : String) :
    Except Err String :=
  let emailLower := normEmail patient_email
  if emailLower == "" then .error (400, "Patient email is required.")
  else
    match musers.find? (fun kv =>
        normEmail kv.1 == emailLower && pyLower kv.2.role == "patient") with
    | some kv => .ok kv.2.id
    | none =>
      .error (400, "No patient found with that email. Patient must sign up first.")

/-- Request body of `POST /api/diagnosis/confirm` (the fields the
endpoint reads; `prescription` is flattened into its three fields). -/
structure ConfirmBody where
  patient_email : String
  session_id : Option String
  final_diagnosis : String
  medication : String
  dosage : String
  instructions : String
  symptoms : List String
  predictions : List Prediction
  edge_cases : List (String × String)
deriving DecidableEq, Repr

/-- Diagnosis document as stored by the in-memory branch of
`diagnosis_confirm`. -/
structure DiagDoc where
  id : String
  patient_id : String
  symptoms : List String
  predictions : List Prediction
  edge_cases : List (String × String)
  final_diagnosis : String
  explanation : String
  pdf_data : String
  pdf_filename : String
deriving DecidableEq, Repr

/-- Prescription document as stored by the in-memory branch of
`diagnosis_confirm`. -/
structure PresDoc where
  id : String
  patient_id : String
  diagnosis_id : String
  medication : String
  dosage : String
  instructions : String
deriving DecidableEq, Repr

/-- Diagnosis document as stored by the durable-store branch of
`diagnosis_confirm` (`created_at` is the insertion timestamp; the Mongo
`_id` is carried in `id`). -/
structure DbDiagDoc where
  id : String
  patient_id : String
  patient_email : String
  session_id : Option String
  symptoms : List String
  predictions : List Prediction
  edge_cases : List (String × String)
  final_diagnosis : String
  explanation : String
  pdf_data : String
  pdf_filename : String
  created_at : String
deriving DecidableEq, Repr

/-- In-memory fallback state: `_memory_users`, `_memory_diagnoses`,
`_memory_prescriptions`.  The two per-patient dict-of-lists are modelled
as flat lists in insertion order; lookups filter by `patient_id`, which
returns exactly the per-patient list. -/
structure MemStore where
  users : List (String × User)
  diagnoses : List DiagDoc
  prescriptions : List PresDoc
deriving DecidableEq, Repr

/-- Durable-store state: the `users`, `diagnoses` and `prescriptions`
collections, each in insertion order. -/
structure DbStore where
  users : List User
  diagnoses : List DbDiagDoc
  prescriptions : List PresDoc
deriving DecidableEq, Repr

/-- Response of `POST /api/diagnosis/confirm`. -/
structure ConfirmResponse where
  success : Bool
  diagnosis_id : Option String
  prescription_id : Option String
  pdf_path : Option String
deriving DecidableEq, Repr

/-- The hardcoded explanation text for jaundice
(`DIAGNOSIS_EXPLANATIONS["jaundice"]`). -/
def jaundiceExplanationText : String :=
  "Jaundice means your skin or the whites of your eyes turn yellow. This happens when a substance called bilirubin builds up in your blood. Bilirubin is normally processed by your liver and removed from your body, but if your liver isn't working properly, if bile flow is blocked, or if red blood cells are breaking down too quickly, bilirubin can accumulate.\n\nJaundice itself is not a disease. It is a sign that something may be affecting your liver, bile ducts, or blood. Common causes include liver inflammation, gallstones, alcohol-related liver problems, certain medications, or infections.\n\nYou might also notice dark urine, pale stools, itching, fatigue, or abdominal discomfort.\n\nJaundice can range from mild and temporary to more serious, so it's important to see a doctor to find the cause and get proper treatment."

/-- `_generate_diagnosis_explanation` with no `GEMINI_KEY` configured
(the deterministic path): hardcoded text when a known key occurs in the
lower-cased diagnosis, otherwise the empty string.  The Gemini call is an
external text generator and is not part of the embedded behaviour; with a
key set it would replace the final empty-string result. -/
def generate_diagnosis_explanation (final_diagnosis : String) : String :=
  let diagLower := pyLower (pyStrip final_diagnosis)
  if diagLower == "" then ""
  else if strContains diagLower "jaundice" then jaundiceExplanationText
  else ""

/-- `body.patient_email.split('@')[0]`. -/
def emailLocalPart (email : String) : String :=
  ⟨email.data.takeWhile (fun c => c != '@')⟩

/-- The stored `pdf_filename`: `prescription_{local part}_{timestamp}.pdf`. -/
def pdfFilenameOf (patient_email now : String) : String :=
  "prescription_" ++ emailLocalPart patient_email ++ "_" ++ now ++ ".pdf"

/-- `POST /api/diagnosis/confirm`, durable-store mode.  `freshDiagId` and
`freshPresId` are the Mongo-generated ids, `now` the timestamp, `pdfData`
the base64 of the reportlab rendering (opaque rendering of the request
body).  Patient resolution failures propagate before any write. -/
def diagnosis_confirm_db (st : DbStore) (b : ConfirmBody)
    (freshDiagId freshPresId now pdfData : String) :
    Except Err ConfirmResponse × DbStore :=
  match resolve_patient_db st.users b.patient_email with
  | .error e => (.error e, st)
  | .ok patientId =>
    let explanation := generate_diagnosis_explanation b.final_diagnosis
    let ddoc : DbDiagDoc :=
      ⟨freshDiagId, patientId, normEmail b.patient_email, b.session_id,
       b.symptoms, b.predictions, b.edge_cases, b.final_diagnosis,
       explanation, pdfData, pdfFilenameOf b.patient_email now, now⟩
    let pdoc : PresDoc :=
      ⟨freshPresId, patientId, freshDiagId, b.medication, b.dosage, b.instructions⟩
    (.ok ⟨true, some freshDiagId, some freshPresId, none⟩,
     ⟨st.users, st.diagnoses ++ [ddoc], st.prescriptions ++ [pdoc]⟩)

/-- `POST /api/diagnosis/confirm`, in-memory fallback mode. -/
def diagnosis_confirm_mem (st : MemStore) (b : ConfirmBody)
    (freshDiagId freshPresId now pdfData : String) :
    Except Err ConfirmResponse × MemStore :=
  match resolve_patient_mem st.users b.patient_email with
  | .error e => (.error e, st)
  | .ok patientId =>
    let explanation := generate_diagnosis_explanation b.final_diagnosis
    let ddoc : DiagDoc :=
      ⟨freshDiagId, patientId, b.symptoms, b.predictions, b.edge_cases,
       b.final_diagnosis, explanation, pdfData,
       pdfFilenameOf b.patient_email now⟩
    let pdoc : PresDoc :=
      ⟨freshPresId, patientId, freshDiagId, b.medication, b.dosage, b.instructions⟩
    (.ok ⟨true, some freshDiagId, some freshPresId, none⟩,
     ⟨st.users, st.diagnoses ++ [ddoc], st.prescriptions ++ [pdoc]⟩)

/-- Upload/transcribe state: the `_upload_paths` dict (association list
in insertion order) and the set of files currently present in `DATA_DIR`
(the claims assume a well-formed filesystem, i.e. no duplicate paths,
stated as a hypothesis where needed). -/
structure RecState where
  uploadPaths : List (String × String)
  files : List String
deriving DecidableEq, Repr

/-- Does the file name match the glob `upload_{upload_id}.*` used by the
stateless fallback lookup?  A single `*` matches any character run, so
the test is a prefix test on `upload_{id}.`. -/
def matchesUpload (uploadId fname : String) : Bool :=
  startsWithList ("upload_" ++ uploadId ++ ".").data fname.data

/-- `_find_upload_path`: try the in-memory dict first (only if the
recorded path still exists on disk), then scan `DATA_DIR` for
`upload_{id}.*`.  Directory scan order is filesystem-dependent; the
claims only use it when at most one file matches, where the order is
irrelevant. -/
def find_upload_path (st : RecState) (uploadId : String) : Option String :=
  let fromMap : Option String :=
    match st.uploadPaths.lookup uploadId with
    | some p => if st.files.contains p then some p else none
    | none => none
  match fromMap with
  | some p => some p
  | none => st.files.find? (fun f => matchesUpload uploadId f)

/-- Outcome of the faster-whisper dependency for one transcription call:
not installed (`ImportError`), a successful transcription (the joined
segment text), or a raised exception. -/
inductive WhisperOutcome where
  | notInstalled
  | ok (text : String)
  | raised (msg : String)

/-- Response of `POST /api/record/transcribe`. -/
structure TranscribeResponse where
  transcript : String
  upload_id : String
  is_stub : Bool
deriving DecidableEq, Repr

/-- `POST /api/record/transcribe`.  On a successful non-stub
transcription the audio file is unlinked (best effort; in this
filesystem model the unlink succeeds, `missing_ok` cannot trigger since
the found path exists) and the dict entry popped, before returning.  The
`ImportError` stub path and the raised-exception path leave the state
unchanged. -/
def record_transcribe (st : RecState) (uploadId : String) (w : WhisperOutcome) :
    Except Err TranscribeResponse × RecState :=
  match find_upload_path st uploadId with
  | none => (.error (404, "Upload not found or expired"), st)
  | some path =>
    match w with
    | .notInstalled =>
      (.ok ⟨STUB_TRANSCRIPT_MESSAGE, uploadId, true⟩, st)
    | .raised msg =>
      (.error (500, "Transcription failed: " ++ msg), st)
    | .ok text =>
      let transcript := if pyStrip text == "" then "[No speech detected]" else pyStrip text
      (.ok ⟨transcript, uploadId, false⟩,
       ⟨st.uploadPaths.filter (fun kv => kv.1 != uploadId), st.files.erase path⟩)

/-- Decoded JWT payload attached to a request (`get_current_user`). -/
structure TokenPayload where
  sub : String
  email : String
  role : String
  name : String
deriving DecidableEq, Repr

/-- Response of `GET /api/patient/{patient_id}` in the in-memory branch. -/
structure PatientDash where
  patient_id : String
  diagnoses : List DiagDoc
  prescriptions : List PresDoc
  explanation : String
  edge_cases : List (String × String)
deriving DecidableEq, Repr

/-- Replace the first element satisfying `p` by `f` applied to it
(models an in-place mutation of the object found by a first-match
scan). -/
def updateFirst (p : α → Bool) (f : α → α) : List α → List α
  | [] => []
  | a :: rest => if p a then f a :: rest else a :: updateFirst p f rest

/-- `GET /api/patient/{patient_id}`, in-memory branch (`db is None`),
with no `GEMINI_KEY` configured.  The ownership gate runs first: a
patient-role token whose subject differs from the requested id is
rejected with 403 before any data access.  The lazily back-filled
explanation mutates the stored latest-diagnosis dict in place (the first
stored document for the patient), which is also the object returned in
the `diagnoses` list, so both the returned list and the store reflect
it.  The durable-store branch runs the same gate before touching the
database. -/
def patient_get_mem (st : MemStore) (user : TokenPayload) (patient_id : String) :
    Except Err PatientDash × MemStore :=
  if user.role == "patient" && user.sub != patient_id then
    (.error (403, "Can only view own dashboard"), st)
  else
    let diagnoses := st.diagnoses.filter (fun d => d.patient_id == patient_id)
    let prescriptions := st.prescriptions.filter (fun p => p.patient_id == patient_id)
    match diagnoses.head? with
    | none =>
      (.ok ⟨patient_id, diagnoses, prescriptions, "", []⟩, st)
    | some latest =>
      let preds := latest.predictions
      let rawEdge :=
        if latest.edge_cases.isEmpty then
          (preds.filter (fun p => p.is_edge_case)).map (fun p => (p.disease, ""))
        else latest.edge_cases
      let explanation0 := pyStrip latest.explanation
      let finalDiag := pyStrip latest.final_diagnosis
      let ai :=
        if finalDiag != "" && (explanation0 == "" || explanation0 == finalDiag) then
          generate_diagnosis_explanation latest.final_diagnosis
        else ""
      let explanation1 := if ai != "" then ai else explanation0
      let explanation := if explanation1 == "" then finalDiag else explanation1
      let stDiagnoses :=
        if ai != "" then
          updateFirst (fun d => d.patient_id == patient_id)
            (fun d => { d with explanation := ai }) st.diagnoses
        else st.diagnoses
      let diagnoses' := stDiagnoses.filter (fun d => d.patient_id == patient_id)
      (.ok ⟨patient_id, diagnoses', prescriptions, explanation, rawEdge⟩,
       ⟨st.users, stDiagnoses, st.prescriptions⟩)

/-! ### Helper lemmas -/

theorem pyLowerChar_idem (c : Char) : pyLowerChar (pyLowerChar c) = pyLowerChar c := by
  by_cases h : 65 ≤ c.toNat ∧ c.toNat ≤ 90
  · have hv : (c.toNat + 32).isValidChar := by
      left
      omega
    have ht : (Char.ofNat (c.toNat + 32)).toNat = c.toNat + 32 := by
      unfold Char.ofNat
      rw [dif_pos hv]
      simp [Char.ofNatAux, Char.toNat, UInt32.toNat]
    unfold pyLowerChar
    rw [if_pos h, if_neg]
    rw [ht]
    omega
  · unfold pyLowerChar
    rw [if_neg h, if_neg h]

theorem pyLower_idem (s : String) : pyLower (pyLower s) = pyLower s := by
  unfold pyLower
  simp [List.map_map, Function.comp_def, pyLowerChar_idem]

theorem startsWithList_iff :
    ∀ needle hay : List Char, startsWithList needle hay = true ↔ ∃ t, hay = needle ++ t := by
  intro needle
  induction needle with
  | nil =>
    intro hay
    simp [startsWithList]
  | cons a as ih =>
    intro hay
    cases hay with
    | nil =>
      simp [startsWithList]
    | cons b bs =>
      simp only [startsWithList, Bool.and_eq_true, beq_iff_eq, ih]
      constructor
      · rintro ⟨rfl, t, rfl⟩
        exact ⟨t, rfl⟩
      · rintro ⟨t, ht⟩
        simp only [List.cons_append, List.cons.injEq] at ht
        exact ⟨ht.1.symm, t, ht.2⟩

theorem containsSubList_iff (needle : List Char) :
    ∀ hay, containsSubList needle hay = true ↔ ∃ pre suf, hay = pre ++ needle ++ suf := by
  intro hay
  induction hay with
  | nil =>
    simp only [containsSubList, startsWithList_iff]
    constructor
    · rintro ⟨t, ht⟩
      exact ⟨[], t, by simpa using ht⟩
    · rintro ⟨pre, suf, h⟩
      have hpre : pre = [] := by
        cases pre with
        | nil => rfl
        | cons x xs => simp at h
      subst hpre
      exact ⟨suf, by simpa using h⟩
  | cons c rest ih =>
    simp only [containsSubList, Bool.or_eq_true, startsWithList_iff, ih]
    constructor
    · rintro (⟨t, ht⟩ | ⟨pre, suf, rfl⟩)
      · exact ⟨[], t, by simpa using ht⟩
      · exact ⟨c :: pre, suf, by simp⟩
    · rintro ⟨pre, suf, h⟩
      cases pre with
      | nil =>
        left
        exact ⟨suf, by simpa using h⟩
      | cons x xs =>
        right
        simp only [List.cons_append, List.cons.injEq] at h
        exact ⟨xs, suf, h.2⟩

theorem pyStrip_data_infix (s : String) :
    ∃ pre suf, s.data = pre ++ (pyStrip s).data ++ suf := by
  refine ⟨s.data.takeWhile pyIsSpace,
    ((s.data.dropWhile pyIsSpace).reverse.takeWhile pyIsSpace).reverse, ?_⟩
  unfold pyStrip
  have h1 : s.data = s.data.takeWhile pyIsSpace ++ s.data.dropWhile pyIsSpace :=
    (List.takeWhile_append_dropWhile pyIsSpace s.data).symm
  have h2 : (s.data.dropWhile pyIsSpace).reverse =
      (s.data.dropWhile pyIsSpace).reverse.takeWhile pyIsSpace ++
      (s.data.dropWhile pyIsSpace).reverse.dropWhile pyIsSpace :=
    (List.takeWhile_append_dropWhile pyIsSpace (s.data.dropWhile pyIsSpace).reverse).symm
  conv_lhs => rw [h1]
  have h3 : s.data.dropWhile pyIsSpace =
      ((s.data.dropWhile pyIsSpace).reverse.dropWhile pyIsSpace).reverse ++
      ((s.data.dropWhile pyIsSpace).reverse.takeWhile pyIsSpace).reverse := by
    conv_lhs => rw [← List.reverse_reverse (s.data.dropWhile pyIsSpace)]
    rw [← List.reverse_append]
    rw [← h2]
  rw [h3]
  simp

theorem strContains_pyStrip (t : String) : strContains t (pyStrip t) = true := by
  rcases pyStrip_data_infix t with ⟨pre, suf, h⟩
  unfold strContains
  rw [containsSubList_iff]
  exact ⟨pre, suf, h⟩

theorem argsortAsc_perm (probs : List ℚ) :
    (argsortAsc probs).Perm (List.range probs.length) :=
  List.perm_insertionSort _ _

theorem argsortAsc_nodup (probs : List ℚ) : (argsortAsc probs).Nodup :=
  ((argsortAsc_perm probs).nodup_iff).mpr (List.nodup_range _)

theorem argsortAsc_sorted (probs : List ℚ) :
    (argsortAsc probs).Pairwise (fun i j => probs.getD i 0 ≤ probs.getD j 0) := by
  haveI : IsTotal Nat (fun i j => probs.getD i 0 ≤ probs.getD j 0) :=
    ⟨fun a b => le_total _ _⟩
  haveI : IsTrans Nat (fun i j => probs.getD i 0 ≤ probs.getD j 0) :=
    ⟨fun a b c hab hbc => le_trans hab hbc⟩
  exact List.sorted_insertionSort _ (List.range probs.length)

theorem topIndices_nodup (probs : List ℚ) : (topIndices probs).Nodup := by
  have h2 : (argsortAsc probs).reverse.Nodup := by
    simpa using argsortAsc_nodup probs
  exact h2.sublist (List.take_sublist _ _)

theorem topIndices_mem_lt (probs : List ℚ) : ∀ i ∈ topIndices probs, i < probs.length := by
  intro i hi
  have h1 : i ∈ (argsortAsc probs).reverse := List.mem_of_mem_take hi
  have h2 : i ∈ argsortAsc probs := List.mem_reverse.mp h1
  have h3 : i ∈ List.range probs.length := (argsortAsc_perm probs).mem_iff.mp h2
  exact List.mem_range.mp h3

theorem topIndices_length_le (probs : List ℚ) : (topIndices probs).length ≤ 5 := by
  unfold topIndices
  simp

theorem getD_mem_of_lt (l : List ℚ) (i : Nat) (h : i < l.length) : l.getD i 0 ∈ l := by
  rw [List.getD_eq_getElem?_getD, List.getElem?_eq_getElem h]
  exact List.getElem_mem h

theorem topProbOf_max (probs : List ℚ) (hne : probs ≠ []) :
    topProbOf probs ∈ probs ∧ ∀ x ∈ probs, x ≤ topProbOf probs := by
  have hlen : (argsortAsc probs).length = probs.length :=
    (argsortAsc_perm probs).length_eq.trans (List.length_range _)
  have hpos : 0 < probs.length := List.length_pos.mpr hne
  have hrevne : (argsortAsc probs).reverse ≠ [] := by
    intro hrev
    have : (argsortAsc probs).length = 0 := by
      simpa using congrArg List.length hrev
    omega
  obtain ⟨a, t, hat⟩ := List.exists_cons_of_ne_nil hrevne
  have htop : topIndices probs = a :: t.take 4 := by
    unfold topIndices
    rw [hat]
    rfl
  have htopProb : topProbOf probs = probs.getD a 0 := by
    unfold topProbOf
    rw [htop]
    rfl
  have hsorted' : (argsortAsc probs).reverse.Pairwise
      (fun i j => probs.getD j 0 ≤ probs.getD i 0) :=
    List.pairwise_reverse.mpr (argsortAsc_sorted probs)
  have hpairs : ∀ j ∈ t, probs.getD j 0 ≤ probs.getD a 0 := by
    have := hat ▸ hsorted'
    exact (List.pairwise_cons.mp this).1
  have hamem : a ∈ argsortAsc probs := by
    have : a ∈ (argsortAsc probs).reverse := by
      rw [hat]
      exact List.mem_cons_self a t
    exact List.mem_reverse.mp this
  have halt : a < probs.length :=
    List.mem_range.mp ((argsortAsc_perm probs).mem_iff.mp hamem)
  constructor
  · rw [htopProb]
    exact getD_mem_of_lt probs a halt
  · intro x hx
    obtain ⟨j, hj, rfl⟩ := List.mem_iff_getElem.mp hx
    have hjmem : j ∈ (argsortAsc probs).reverse := by
      rw [List.mem_reverse]
      exact (argsortAsc_perm probs).mem_iff.mpr (List.mem_range.mpr hj)
    rw [hat] at hjmem
    rw [htopProb]
    rcases List.mem_cons.mp hjmem with hja | hjt
    · subst hja
      rw [List.getD_eq_getElem?_getD, List.getElem?_eq_getElem hj]
      exact le_refl _
    · have := hpairs j hjt
      calc probs[j] = probs.getD j 0 := by
            rw [List.getD_eq_getElem?_getD, List.getElem?_eq_getElem hj]
            rfl
        _ ≤ probs.getD a 0 := this

theorem getD_eq_getElem_of_lt {α : Type} (l : List α) (d : α) (i : Nat)
    (h : i < l.length) : l.getD i d = l[i] := by
  rw [List.getD_eq_getElem?_getD, List.getElem?_eq_getElem h]
  rfl

theorem analyzePreds_labels_nodup (classes : List String) (probs : List ℚ)
    (hlen : classes.length = probs.length) (hnd : classes.Nodup) :
    ((analyzePreds classes probs).map (fun p => p.disease)).Nodup := by
  unfold analyzePreds
  rw [List.map_map]
  refine (topIndices_nodup probs).map_on ?_
  intro i hi j hj hij
  have hi' : i < classes.length := hlen ▸ topIndices_mem_lt probs i hi
  have hj' : j < classes.length := hlen ▸ topIndices_mem_lt probs j hj
  simp only [Function.comp] at hij
  rw [getD_eq_getElem_of_lt classes "" i hi', getD_eq_getElem_of_lt classes "" j hj'] at hij
  exact (hnd.getElem_inj_iff).mp hij

theorem partition_common_edge (preds : List Prediction)
    (hnd : (preds.map (fun p => p.disease)).Nodup) :
    (∀ l, l ∈ preds.map (fun p => p.disease) ↔ (l ∈ commonOf preds ∨ l ∈ edgeCasesOf preds)) ∧
    (∀ l, ¬(l ∈ commonOf preds ∧ l ∈ edgeCasesOf preds)) := by
  constructor
  · intro l
    constructor
    · intro hl
      obtain ⟨p, hp, rfl⟩ := List.mem_map.mp hl
      by_cases he : p.is_edge_case
      · right
        exact List.mem_map.mpr ⟨p, List.mem_filter.mpr ⟨hp, by simp [he]⟩, rfl⟩
      · left
        exact List.mem_map.mpr ⟨p, List.mem_filter.mpr ⟨hp, by simp [he]⟩, rfl⟩
    · rintro (hl | hl) <;>
        (obtain ⟨p, hp, rfl⟩ := List.mem_map.mp hl
         exact List.mem_map.mpr ⟨p, (List.mem_filter.mp hp).1, rfl⟩)
  · rintro l ⟨hc, he⟩
    obtain ⟨p, hpf, rfl⟩ := List.mem_map.mp hc
    obtain ⟨q, hqf, hq⟩ := List.mem_map.mp he
    have hp := List.mem_filter.mp hpf
    have hq' := List.mem_filter.mp hqf
    have hqp : q = p := List.inj_on_of_nodup_map hnd hq'.1 hp.1 hq
    rw [hqp] at hq'
    have h1 : p.is_edge_case = false := by
      have := hp.2
      simpa using this
    have h2 : p.is_edge_case = true := by
      have := hq'.2
      simpa using this
    rw [h1] at h2
    exact Bool.false_ne_true h2

theorem extract_canonical_nodup (t : String) : (extract_canonical t).Nodup := by
  unfold extract_canonical
  split
  · exact List.nodup_nil
  · split
    · exact List.nodup_nil
    · dsimp only
      split
      · exact List.nodup_singleton _
      · exact List.nodup_dedup _

theorem extract_mayReturn_content (t : String) (l : List String)
    (h : extract_mayReturn t l) :
    l.Nodup ∧ ∀ s, s ∈ l ↔ s ∈ extract_canonical t := by
  unfold extract_mayReturn at h
  exact ⟨h.nodup_iff.mpr (extract_canonical_nodup t), fun s => h.mem_iff⟩

/-! ### Claim theorems -/

/-- C1 counterexample: the claim asserts the edge-flag invariant and the
common/edge partition for every predictions list *including* the
degenerate model-not-loaded prediction.  The degenerate prediction has
confidence 0.0, which is below 0.3, yet its `is_edge_case` flag is
`false`, and its label appears in neither `common` nor `edge_cases`
(both are returned empty), so the claim fails on the model-not-loaded
response. -/
theorem C1_counterexample :
    diagnosis_analyze ["fever"] .absent =
      .ok ⟨["fever"], [⟨"Unknown (model not loaded)", 0, false⟩], [], []⟩ ∧
    ((0 : ℚ) < mkRat 3 10) ∧
    ("Unknown (model not loaded)" ∉ ([] : List String)) := by
  refine ⟨rfl, by decide, by simp⟩

/-- C1 (amended): in the model-loaded paths of `POST
/api/diagnosis/analyze` — both the `predict_proba` path (given distinct
class labels, as scikit-learn guarantees) and the label-only path —
every returned prediction satisfies `is_edge_case = (confidence < 0.3)`,
and the `common` and `edge_cases` lists partition the predicted labels:
a label is predicted iff it is in exactly one of the two lists.  The
degenerate model-not-loaded prediction is exempt: it carries
`is_edge_case = false` with confidence 0.0 and its label appears in
neither list (see the counterexample). -/
theorem C1_edge_invariant_and_partition (classes : List String) (probs : List ℚ)
    (syms : List String) (label : String)
    (hlen : classes.length = probs.length) (hnd : classes.Nodup) :
    (∃ r, diagnosis_analyze syms (.proba classes probs) = .ok r ∧
      (∀ p ∈ r.predictions, p.is_edge_case = decide (p.confidence < mkRat 3 10)) ∧
      (∀ d, d ∈ r.predictions.map (fun p => p.disease) ↔ (d ∈ r.common ∨ d ∈ r.edge_cases)) ∧
      (∀ d, ¬(d ∈ r.common ∧ d ∈ r.edge_cases))) ∧
    (∃ r, diagnosis_analyze syms (.labelOnly label) = .ok r ∧
      (∀ p ∈ r.predictions, p.is_edge_case = decide (p.confidence < mkRat 3 10)) ∧
      (∀ d, d ∈ r.predictions.map (fun p => p.disease) ↔ (d ∈ r.common ∨ d ∈ r.edge_cases)) ∧
      (∀ d, ¬(d ∈ r.common ∧ d ∈ r.edge_cases))) := by
  constructor
  · refine ⟨⟨syms, analyzePreds classes probs, commonOf (analyzePreds classes probs),
      edgeCasesOf (analyzePreds classes probs)⟩, rfl, ?_, ?_, ?_⟩
    · intro p hp
      obtain ⟨i, hi, rfl⟩ := List.mem_map.mp hp
      rfl
    · exact (partition_common_edge _ (analyzePreds_labels_nodup classes probs hlen hnd)).1
    · exact (partition_common_edge _ (analyzePreds_labels_nodup classes probs hlen hnd)).2
  · refine ⟨⟨syms, [⟨label, 1, false⟩], commonOf [⟨label, 1, false⟩],
      edgeCasesOf [⟨label, 1, false⟩]⟩, rfl, ?_, ?_, ?_⟩
    · intro p hp
      have hp' : p = ⟨label, 1, false⟩ := List.mem_singleton.mp hp
      subst hp'
      show (false : Bool) = decide ((1 : ℚ) < mkRat 3 10)
      decide
    · exact (partition_common_edge _ (by simp)).1
    · exact (partition_common_edge _ (by simp)).2

/-- C1 witness: the amended theorem instantiated at a concrete
two-class model output. -/
theorem C1_edge_invariant_and_partition_witness :
    (∃ r, diagnosis_analyze ["fever"] (.proba ["a", "b"] [mkRat 1 4, mkRat 1 2]) = .ok r ∧
      (∀ p ∈ r.predictions, p.is_edge_case = decide (p.confidence < mkRat 3 10)) ∧
      (∀ d, d ∈ r.predictions.map (fun p => p.disease) ↔ (d ∈ r.common ∨ d ∈ r.edge_cases)) ∧
      (∀ d, ¬(d ∈ r.common ∧ d ∈ r.edge_cases))) ∧
    (∃ r, diagnosis_analyze ["fever"] (.labelOnly "Flu") = .ok r ∧
      (∀ p ∈ r.predictions, p.is_edge_case = decide (p.confidence < mkRat 3 10)) ∧
      (∀ d, d ∈ r.predictions.map (fun p => p.disease) ↔ (d ∈ r.common ∨ d ∈ r.edge_cases)) ∧
      (∀ d, ¬(d ∈ r.common ∧ d ∈ r.edge_cases))) :=
  C1_edge_invariant_and_partition ["a", "b"] [mkRat 1 4, mkRat 1 2] ["fever"] "Flu" (by decide) (by decide)

/-- C4: when no model or no vectorizer is loaded, `POST
/api/diagnosis/analyze` succeeds, returning exactly one prediction with
label "Unknown (model not loaded)", confidence 0.0 and edge flag false,
alongside the extracted symptoms (`syms` ranges over every possible
extractor output); it never returns an error in that case, unlike the
HTTP 500 with the exception message raised when a loaded model fails
during inference. -/
theorem C4_model_not_loaded_graceful (syms : List String) (msg : String) :
    diagnosis_analyze syms .absent =
      .ok ⟨syms, [⟨"Unknown (model not loaded)", 0, false⟩], [], []⟩ ∧
    (∀ e, diagnosis_analyze syms .absent ≠ .error e) ∧
    diagnosis_analyze syms (.failure msg) = .error (500, "Analysis failed: " ++ msg) := by
  refine ⟨rfl, ?_, rfl⟩
  intro e h
  simp [diagnosis_analyze] at h

/-- C2 counterexample: the claim asserts that extraction returns the
matched symptoms in insertion order (vocabulary scan order, then pattern
matches in text order).  The code accumulates matches in a Python `set`
and returns `list(found)`, whose iteration order is hash-table order
under the randomised per-process string hash seed, not insertion order:
on the transcript "fever and cough" the insertion order is
["fever", "cough"], yet ["cough", "fever"] is an equally possible return
value of `list(found)`. -/
theorem C2_counterexample :
    extract_mayReturn "fever and cough" ["cough", "fever"] ∧
    ["cough", "fever"] ≠ extract_canonical "fever and cough" := by
  constructor
  · unfold extract_mayReturn
    decide
  · decide

/-- C2 (amended): extraction returns each matched symptom exactly once —
the output is duplicate-free and is a permutation of the matched-symptom
set (canonically enumerated keywords-first, then pattern matches in text
order) — but in an unspecified order (Python set iteration order), not
necessarily insertion order. -/
theorem C2_extract_ordered_set (t : String) (l : List String)
    (h : extract_mayReturn t l) :
    l.Nodup ∧ l.Perm (extract_canonical t) ∧
      ∀ s, s ∈ l ↔ s ∈ extract_canonical t := by
  obtain ⟨hnd, hmem⟩ := extract_mayReturn_content t l h
  exact ⟨hnd, h, hmem⟩

/-- C2 witness: the amended theorem at the transcript "fever" with its
(unique) one-element output. -/
theorem C2_extract_ordered_set_witness :
    ["fever"].Nodup ∧ List.Perm ["fever"] (extract_canonical "fever") ∧
      ∀ s, s ∈ ["fever"] ↔ s ∈ extract_canonical "fever" :=
  C2_extract_ordered_set "fever" ["fever"] (by unfold extract_mayReturn; decide)

/-- C3 counterexample: the claim asserts the risk tier is the stated
function of symptom count and top confidence for every patient-twin
request, in particular HIGH whenever at least four symptoms were
extracted.  When no model is loaded the code never enters the
risk-scoring branch and returns the initial "LOW" even for four
symptoms, while the claimed function (top confidence 0 over the empty
prediction list) yields "HIGH". -/
theorem C3_counterexample :
    (generate_patient_twin ["fever", "cough", "nausea", "rash"] .absent).2 = "LOW" ∧
    risk_score_claimed 0 (["fever", "cough", "nausea", "rash"].length) = "HIGH" ∧
    ("LOW" : String) ≠ "HIGH" := by
  refine ⟨rfl, by decide, by decide⟩

/-- C3 (amended): when the model and vectorizer are loaded, the model
exposes `predict_proba`, inference succeeds and the extracted symptom
list is nonempty, the risk tier equals the claimed function of the top
class probability and the symptom count (HIGH if top probability > 0.7
or count ≥ 4, checked before MEDIUM if top probability > 0.4 or
count ≥ 2, else LOW), where the top probability is the maximum over all
class probabilities; in every other case — model absent, label-only
model, or inference failure — the risk tier is "LOW" regardless of the
symptom count. -/
theorem C3_risk_function (classes : List String) (probs : List ℚ) (syms : List String)
    (hsym : joinSpace syms ≠ "") (hne : probs ≠ []) :
    ((generate_patient_twin syms (.proba classes probs)).2 =
        risk_score_claimed (topProbOf probs) syms.length) ∧
    (topProbOf probs ∈ probs ∧ ∀ x ∈ probs, x ≤ topProbOf probs) ∧
    ((generate_patient_twin syms (.proba classes probs)).2 = "HIGH" ↔
        (topProbOf probs > mkRat 7 10 ∨ syms.length ≥ 4)) ∧
    ((generate_patient_twin syms .absent).2 = "LOW") ∧
    (∀ lab, (generate_patient_twin syms (.labelOnly lab)).2 = "LOW") ∧
    (∀ msg, (generate_patient_twin syms (.failure msg)).2 = "LOW") := by
  have hguard : (joinSpace syms == "") = false := by
    simpa using hsym
  have htwin : (generate_patient_twin syms (.proba classes probs)).2 =
      twinRisk (topProbOf probs) syms.length := by
    unfold generate_patient_twin
    rw [hguard]
    rfl
  refine ⟨?_, topProbOf_max probs hne, ?_, ?_, ?_, ?_⟩
  · rw [htwin]
    rfl
  · rw [htwin]
    unfold twinRisk
    by_cases hhi : topProbOf probs > mkRat 7 10 ∨ syms.length ≥ 4
    · rw [if_pos hhi]
      simp [hhi]
    · rw [if_neg hhi]
      constructor
      · intro h2
        exfalso
        by_cases hmed : topProbOf probs > mkRat 4 10 ∨ syms.length ≥ 2
        · rw [if_pos hmed] at h2
          exact absurd h2 (by decide)
        · rw [if_neg hmed] at h2
          exact absurd h2 (by decide)
      · intro h2
        exact absurd h2 hhi
  · unfold generate_patient_twin
    rw [hguard]
    rfl
  · intro lab
    unfold generate_patient_twin
    rw [hguard]
    rfl
  · intro msg
    unfold generate_patient_twin
    rw [hguard]
    rfl

/-- C3 witness: the amended theorem at a loaded single-class model. -/
theorem C3_risk_function_witness :
    ((generate_patient_twin ["fever"] (.proba ["Flu"] [mkRat 1 2])).2 =
        risk_score_claimed (topProbOf [mkRat 1 2]) ["fever"].length) ∧
    (topProbOf [mkRat 1 2] ∈ [mkRat 1 2] ∧ ∀ x ∈ [mkRat 1 2], x ≤ topProbOf [mkRat 1 2]) ∧
    ((generate_patient_twin ["fever"] (.proba ["Flu"] [mkRat 1 2])).2 = "HIGH" ↔
        (topProbOf [mkRat 1 2] > mkRat 7 10 ∨ ["fever"].length ≥ 4)) ∧
    ((generate_patient_twin ["fever"] .absent).2 = "LOW") ∧
    (∀ lab, (generate_patient_twin ["fever"] (.labelOnly lab)).2 = "LOW") ∧
    (∀ msg, (generate_patient_twin ["fever"] (.failure msg)).2 = "LOW") :=
  C3_risk_function ["Flu"] [mkRat 1 2] ["fever"] (by decide) (by decide)

/-- C7: a transcript that is nonempty after stripping, does not contain
the stub sentinel, contains no vocabulary keyword (in its lower-cased,
stripped form) and has no `"<words> pain/ache"` regex match extracts to
exactly one pseudo-symptom: the first 200 characters of the lower-cased,
stripped text. -/
theorem C7_fallback_pseudo_symptom (t : String) (l : List String)
    (h1 : pyStrip t ≠ "")
    (h2 : strContains t STUB_TRANSCRIPT_MESSAGE = false)
    (h3 : ∀ kw ∈ SYMPTOM_KEYWORDS, strContains (pyStrip (pyLower t)) kw = false)
    (h4 : painMatches (pyStrip (pyLower t)) = [])
    (hl : extract_mayReturn t l) :
    l = [⟨(pyStrip (pyLower t)).data.take 200⟩] := by
  have ht0 : t ≠ "" := by
    intro h
    apply h1
    rw [h]
    rfl
  have hstub : pyStrip t ≠ STUB_TRANSCRIPT_MESSAGE := by
    intro h
    have hc := strContains_pyStrip t
    rw [h, h2] at hc
    cases hc
  have hcanon : extract_canonical t = [⟨(pyStrip (pyLower t)).data.take 200⟩] := by
    have hc1 : (t == "" || pyStrip t == "") = false := by
      simp [ht0, h1]
    have hc2 : (strContains t STUB_TRANSCRIPT_MESSAGE
        || pyStrip t == STUB_TRANSCRIPT_MESSAGE) = false := by
      simp [h2, hstub]
    have hkw : SYMPTOM_KEYWORDS.filter
        (fun kw => strContains (pyStrip (pyLower t)) kw) = [] := by
      rw [List.filter_eq_nil_iff]
      intro kw hkw
      simp [h3 kw hkw]
    unfold extract_canonical
    rw [hc1, hc2]
    dsimp only
    rw [hkw, h4]
    rfl
  unfold extract_mayReturn at hl
  rw [hcanon] at hl
  exact List.perm_singleton.mp hl

/-- C7 witness: a transcript with no keyword and no pain/ache pattern at
which the theorem yields the 200-character pseudo-symptom fallback. -/
theorem C7_fallback_pseudo_symptom_witness :
    ["zzz qqq www"] = [(⟨(pyStrip (pyLower "zzz qqq www")).data.take 200⟩ : String)] :=
  C7_fallback_pseudo_symptom "zzz qqq www" ["zzz qqq www"]
    (by decide) (by decide) (by decide) (by decide)
    (by unfold extract_mayReturn; decide)

/-- C10: in the patient-twin endpoint with a loaded `predict_proba`
model (distinct class labels, symptom list nonempty), the returned
`diagnosis_predictions` list consists exactly of those top-5 classes
whose probability is strictly greater than 0.05, each with its
probability rounded to 2 decimals; a top-5 class at or below 0.05 never
appears, and the list has at most 5 entries (so it may have fewer than 5,
or none — see the witness, where it is empty with the model loaded). -/
theorem C10_twin_top5_filter (classes : List String) (probs : List ℚ)
    (syms : List String)
    (hlen : classes.length = probs.length) (hnd : classes.Nodup)
    (hsym : joinSpace syms ≠ "") :
    ((generate_patient_twin syms (.proba classes probs)).1 = twinPreds classes probs) ∧
    (∀ p ∈ twinPreds classes probs, ∃ i ∈ topIndices probs,
        probs.getD i 0 > mkRat 1 20 ∧
        p = ⟨classes.getD i "", round2 (probs.getD i 0)⟩) ∧
    (∀ i ∈ topIndices probs, probs.getD i 0 ≤ mkRat 1 20 →
        classes.getD i "" ∉ (twinPreds classes probs).map (fun p => p.disease)) ∧
    (twinPreds classes probs).length ≤ 5 := by
  have hguard : (joinSpace syms == "") = false := by
    simpa using hsym
  refine ⟨?_, ?_, ?_, ?_⟩
  · unfold generate_patient_twin
    rw [hguard]
    rfl
  · intro p hp
    obtain ⟨i, hi, rfl⟩ := List.mem_map.mp hp
    have hi' := List.mem_filter.mp hi
    refine ⟨i, hi'.1, ?_, rfl⟩
    simpa using hi'.2
  · intro i hi hle hmem
    obtain ⟨p, hp, hdp⟩ := List.mem_map.mp hmem
    obtain ⟨j, hj, rfl⟩ := List.mem_map.mp hp
    have hj' := List.mem_filter.mp hj
    have hjgt : probs.getD j 0 > mkRat 1 20 := by
      simpa using hj'.2
    have hieq : j = i := by
      have hib : i < classes.length := hlen ▸ topIndices_mem_lt probs i hi
      have hjb : j < classes.length := hlen ▸ topIndices_mem_lt probs j hj'.1
      have hdj : classes.getD j "" = classes.getD i "" := hdp
      rw [getD_eq_getElem_of_lt classes "" j hjb,
          getD_eq_getElem_of_lt classes "" i hib] at hdj
      exact (hnd.getElem_inj_iff).mp hdj
    rw [hieq] at hjgt
    exact absurd hjgt (not_lt.mpr hle)
  · calc (twinPreds classes probs).length
        = ((topIndices probs).filter
            (fun i => decide (probs.getD i 0 > mkRat 1 20))).length := by
          unfold twinPreds
          rw [List.length_map]
      _ ≤ (topIndices probs).length := List.length_filter_le _ _
      _ ≤ 5 := topIndices_length_le probs

/-- C10 witness: a loaded two-class model whose probabilities are all at
or below 0.05, so the filtered predictions list is empty even though the
model is loaded. -/
theorem C10_twin_top5_filter_witness :
    twinPreds ["a", "b"] [mkRat 1 25, mkRat 1 30] = [] ∧
    (((generate_patient_twin ["fever"] (.proba ["a", "b"] [mkRat 1 25, mkRat 1 30])).1 =
        twinPreds ["a", "b"] [mkRat 1 25, mkRat 1 30]) ∧
    (∀ p ∈ twinPreds ["a", "b"] [mkRat 1 25, mkRat 1 30],
        ∃ i ∈ topIndices [mkRat 1 25, mkRat 1 30],
        List.getD [mkRat 1 25, mkRat 1 30] i 0 > mkRat 1 20 ∧
        p = ⟨List.getD ["a", "b"] i "",
             round2 (List.getD [mkRat 1 25, mkRat 1 30] i 0)⟩) ∧
    (∀ i ∈ topIndices [mkRat 1 25, mkRat 1 30],
        List.getD [mkRat 1 25, mkRat 1 30] i 0 ≤ mkRat 1 20 →
        List.getD ["a", "b"] i "" ∉
          (twinPreds ["a", "b"] [mkRat 1 25, mkRat 1 30]).map (fun p => p.disease)) ∧
    (twinPreds ["a", "b"] [mkRat 1 25, mkRat 1 30]).length ≤ 5) :=
  ⟨by decide,
   C10_twin_top5_filter ["a", "b"] [mkRat 1 25, mkRat 1 30] ["fever"]
     (by decide) (by decide) (by decide)⟩

theorem char_toNat_ofNat_valid (n : Nat) (hv : n.isValidChar) :
    (Char.ofNat n).toNat = n := by
  unfold Char.ofNat
  rw [dif_pos hv]
  simp [Char.ofNatAux, Char.toNat, UInt32.toNat]

theorem pyIsSpace_pyLowerChar (c : Char) :
    pyIsSpace (pyLowerChar c) = pyIsSpace c := by
  unfold pyLowerChar
  by_cases h : 65 ≤ c.toNat ∧ c.toNat ≤ 90
  · rw [if_pos h]
    have hv : (c.toNat + 32).isValidChar := by
      left
      omega
    have ht := char_toNat_ofNat_valid (c.toNat + 32) hv
    have hsp : (' ' : Char).toNat = 32 := by decide
    have h1 : pyIsSpace (Char.ofNat (c.toNat + 32)) = false := by
      unfold pyIsSpace
      have ha : (Char.ofNat (c.toNat + 32) == ' ') = false := by
        rw [beq_eq_false_iff_ne]
        intro hcon
        have := congrArg Char.toNat hcon
        rw [ht, hsp] at this
        omega
      have hb : decide ((Char.ofNat (c.toNat + 32)).toNat ≤ 13) = false := by
        apply decide_eq_false
        rw [ht]
        omega
      rw [ha, hb]
      simp
    have h2 : pyIsSpace c = false := by
      unfold pyIsSpace
      have ha : (c == ' ') = false := by
        rw [beq_eq_false_iff_ne]
        intro hcon
        have := congrArg Char.toNat hcon
        rw [hsp] at this
        omega
      have hb : decide (c.toNat ≤ 13) = false := by
        apply decide_eq_false
        omega
      rw [ha, hb]
      simp
    rw [h1, h2]
  · rw [if_neg h]

theorem dropWhile_self_self (p : α → Bool) (l : List α) :
    (l.dropWhile p).dropWhile p = l.dropWhile p := by
  induction l with
  | nil => rfl
  | cons a t ih =>
    by_cases h : p a
    · rw [List.dropWhile_cons_of_pos h]
      exact ih
    · rw [List.dropWhile_cons_of_neg h, List.dropWhile_cons_of_neg h]

theorem dropWhile_eq_self_append (p : α → Bool) (l₁ rest : List α)
    (h : (l₁ ++ rest).dropWhile p = l₁ ++ rest) : l₁.dropWhile p = l₁ := by
  cases l₁ with
  | nil => rfl
  | cons a t =>
    by_cases hpa : p a
    · exfalso
      rw [List.cons_append, List.dropWhile_cons_of_pos hpa] at h
      have hle : ((t ++ rest).dropWhile p).length ≤ (t ++ rest).length :=
        (List.dropWhile_sublist p).length_le
      have := congrArg List.length h
      simp only [List.length_cons, List.length_append] at this hle
      omega
    · rw [List.dropWhile_cons_of_neg hpa]

theorem pyStrip_pyLower (s : String) :
    pyStrip (pyLower s) = pyLower (pyStrip s) := by
  unfold pyStrip pyLower
  have hcomp : (pyIsSpace ∘ pyLowerChar) = pyIsSpace := funext pyIsSpace_pyLowerChar
  congr 1
  show (((s.data.map pyLowerChar).dropWhile pyIsSpace).reverse.dropWhile pyIsSpace).reverse
      = (((s.data.dropWhile pyIsSpace).reverse.dropWhile pyIsSpace).reverse).map pyLowerChar
  rw [List.dropWhile_map, hcomp, ← List.map_reverse, List.dropWhile_map, hcomp,
      ← List.map_reverse]

theorem pyStrip_idem (s : String) : pyStrip (pyStrip s) = pyStrip s := by
  have hd := dropWhile_self_self pyIsSpace s.data
  have hsplit := List.takeWhile_append_dropWhile pyIsSpace
      (s.data.dropWhile pyIsSpace).reverse
  have hdecomp : s.data.dropWhile pyIsSpace =
      ((s.data.dropWhile pyIsSpace).reverse.dropWhile pyIsSpace).reverse ++
      ((s.data.dropWhile pyIsSpace).reverse.takeWhile pyIsSpace).reverse := by
    conv_lhs => rw [← List.reverse_reverse (s.data.dropWhile pyIsSpace), ← hsplit]
    rw [List.reverse_append]
  have hfrontA : (((s.data.dropWhile pyIsSpace).reverse.dropWhile pyIsSpace).reverse
      ++ ((s.data.dropWhile pyIsSpace).reverse.takeWhile pyIsSpace).reverse).dropWhile
        pyIsSpace =
      ((s.data.dropWhile pyIsSpace).reverse.dropWhile pyIsSpace).reverse
      ++ ((s.data.dropWhile pyIsSpace).reverse.takeWhile pyIsSpace).reverse := by
    rw [← hdecomp]
    exact hd
  have hA : (((s.data.dropWhile pyIsSpace).reverse.dropWhile pyIsSpace).reverse).dropWhile
      pyIsSpace =
      ((s.data.dropWhile pyIsSpace).reverse.dropWhile pyIsSpace).reverse :=
    dropWhile_eq_self_append pyIsSpace _ _ hfrontA
  unfold pyStrip
  congr 1
  show ((((((s.data.dropWhile pyIsSpace).reverse.dropWhile pyIsSpace).reverse :
        List Char)).dropWhile pyIsSpace).reverse.dropWhile pyIsSpace).reverse =
      ((s.data.dropWhile pyIsSpace).reverse.dropWhile pyIsSpace).reverse
  rw [hA, List.reverse_reverse,
      dropWhile_self_self pyIsSpace (s.data.dropWhile pyIsSpace).reverse]

theorem normEmail_idem (e : String) : normEmail (normEmail e) = normEmail e := by
  unfold normEmail
  rw [pyStrip_pyLower, pyStrip_idem, pyLower_idem]

/-- C5: when the confirm request's patient email does not match,
case-insensitively, any stored user whose role is patient, `POST
/api/diagnosis/confirm` fails with HTTP 400 and writes nothing: the
store is returned unchanged, in both the durable-store mode and the
in-memory fallback mode.  The hypothesis allows doctor accounts with the
very same email (see the witness). -/
theorem C5_confirm_unknown_patient
    (dst : DbStore) (mst : MemStore) (b : ConfirmBody)
    (dId pId now pdf : String)
    (hdb : ∀ u ∈ dst.users, u.role = "patient" →
        pyLower u.email ≠ normEmail b.patient_email)
    (hmem : ∀ kv ∈ mst.users, pyLower (Prod.snd kv).role = "patient" →
        normEmail (Prod.fst kv) ≠ normEmail b.patient_email) :
    (∃ msg, diagnosis_confirm_db dst b dId pId now pdf = (.error (400, msg), dst)) ∧
    (∃ msg, diagnosis_confirm_mem mst b dId pId now pdf = (.error (400, msg), mst)) := by
  constructor
  · have hres : ∃ msg, resolve_patient_db dst.users b.patient_email =
        .error (400, msg) := by
      unfold resolve_patient_db
      by_cases hel : (normEmail b.patient_email == "") = true
      · rw [if_pos hel]
        exact ⟨_, rfl⟩
      · rw [if_neg hel]
        have hfind : dst.users.find? (fun u =>
            u.role == "patient" && pyLower u.email == normEmail b.patient_email) =
            none := by
          rw [List.find?_eq_none]
          intro u hu hcon
          simp only [Bool.and_eq_true, beq_iff_eq] at hcon
          exact hdb u hu hcon.1 hcon.2
        rw [hfind]
        exact ⟨_, rfl⟩
    obtain ⟨msg, hres⟩ := hres
    refine ⟨msg, ?_⟩
    unfold diagnosis_confirm_db
    rw [hres]
  · have hres : ∃ msg, resolve_patient_mem mst.users b.patient_email =
        .error (400, msg) := by
      unfold resolve_patient_mem
      by_cases hel : (normEmail b.patient_email == "") = true
      · rw [if_pos hel]
        exact ⟨_, rfl⟩
      · rw [if_neg hel]
        have hfind : mst.users.find? (fun kv =>
            normEmail (Prod.fst kv) == normEmail b.patient_email &&
            pyLower (Prod.snd kv).role == "patient") = none := by
          rw [List.find?_eq_none]
          intro kv hkv hcon
          simp only [Bool.and_eq_true, beq_iff_eq] at hcon
          exact hmem kv hkv hcon.2 hcon.1
        rw [hfind]
        exact ⟨_, rfl⟩
    obtain ⟨msg, hres⟩ := hres
    refine ⟨msg, ?_⟩
    unfold diagnosis_confirm_mem
    rw [hres]

/-- C5 witness: a store holding only a doctor account under the very
email being confirmed; confirm fails with 400 and the store is
unchanged in both modes. -/
theorem C5_confirm_unknown_patient_witness :
    (∃ msg, diagnosis_confirm_db
        ⟨[⟨"d1", "Doc", "pat@x.com", "bcrypt$pw", "doctor"⟩], [], []⟩
        ⟨"pat@x.com", none, "Flu", "Med", "1x", "daily", [], [], []⟩
        "diag1" "pres1" "20250101" "pdf" =
      (.error (400, msg),
        ⟨[⟨"d1", "Doc", "pat@x.com", "bcrypt$pw", "doctor"⟩], [], []⟩)) ∧
    (∃ msg, diagnosis_confirm_mem
        ⟨[("pat@x.com", ⟨"d1", "Doc", "pat@x.com", "bcrypt$pw", "doctor"⟩)], [], []⟩
        ⟨"pat@x.com", none, "Flu", "Med", "1x", "daily", [], [], []⟩
        "diag1" "pres1" "20250101" "pdf" =
      (.error (400, msg),
        ⟨[("pat@x.com", ⟨"d1", "Doc", "pat@x.com", "bcrypt$pw", "doctor"⟩)], [], []⟩)) :=
  C5_confirm_unknown_patient
    ⟨[⟨"d1", "Doc", "pat@x.com", "bcrypt$pw", "doctor"⟩], [], []⟩
    ⟨[("pat@x.com", ⟨"d1", "Doc", "pat@x.com", "bcrypt$pw", "doctor"⟩)], [], []⟩
    ⟨"pat@x.com", none, "Flu", "Med", "1x", "daily", [], [], []⟩
    "diag1" "pres1" "20250101" "pdf" (by decide) (by decide)

/-- C6: after a successful signup with email `email`, a login with any
email that normalises (strip + lower-case) to the same address and with
the same password succeeds and returns a token whose subject is the
signed-up user id, in both the durable-store mode and the in-memory
fallback mode. -/
theorem C6_signup_then_login_case_insensitive
    (users : List User) (musers : List (String × User))
    (name email email2 password role freshId : String)
    (hE : normEmail email2 = normEmail email) :
    (∀ tok st2, auth_signup_db users name email password role freshId = .ok (tok, st2) →
        auth_login_db st2 email2 password =
          .ok ⟨freshId, normEmail email, pyLower role, pyStrip name⟩) ∧
    (∀ tok mst2, auth_signup_mem musers name email password role freshId = .ok (tok, mst2) →
        auth_login_mem mst2 email2 password =
          .ok ⟨freshId, normEmail email, pyLower role, pyStrip name⟩) := by
  constructor
  · intro tok st2 hsign
    unfold auth_signup_db at hsign
    by_cases h0 : (normEmail email == "") = true
    · rw [if_pos h0] at hsign
      cases hsign
    · rw [if_neg h0] at hsign
      by_cases h1 : (dbFindUserByEmail users (normEmail email)).isSome = true
      · rw [if_pos h1] at hsign
        cases hsign
      · rw [if_neg h1] at hsign
        simp only [Except.ok.injEq, Prod.mk.injEq] at hsign
        obtain ⟨htok, hst⟩ := hsign
        have hnone : dbFindUserByEmail users (normEmail email) = none := by
          cases hfe : dbFindUserByEmail users (normEmail email) with
          | none => rfl
          | some u =>
            rw [hfe] at h1
            simp at h1
        unfold auth_login_db
        rw [hE, ← hst]
        unfold dbFindUserByEmail at hnone ⊢
        dsimp only
        rw [List.find?_append, hnone, Option.none_or]
        have hpred : (pyLower (normEmail email) == normEmail email) = true := by
          unfold normEmail
          rw [pyLower_idem]
          exact beq_self_eq_true _
        rw [List.find?_cons]
        rw [hpred]
        simp [verify_password, hash_password]
  · intro tok mst2 hsign
    unfold auth_signup_mem at hsign
    by_cases h0 : (normEmail email == "") = true
    · rw [if_pos h0] at hsign
      cases hsign
    · rw [if_neg h0] at hsign
      by_cases h1 : (musers.find? (fun kv =>
          normEmail (Prod.fst kv) == normEmail email)).isSome = true
      · rw [if_pos h1] at hsign
        cases hsign
      · rw [if_neg h1] at hsign
        simp only [Except.ok.injEq, Prod.mk.injEq] at hsign
        obtain ⟨htok, hst⟩ := hsign
        have hnone : musers.find? (fun kv =>
            normEmail (Prod.fst kv) == normEmail email) = none := by
          cases hfe : musers.find? (fun kv =>
              normEmail (Prod.fst kv) == normEmail email) with
          | none => rfl
          | some u =>
            rw [hfe] at h1
            simp at h1
        unfold auth_login_mem
        rw [hE, ← hst]
        unfold memFindUserByEmail
        dsimp only
        rw [List.find?_append, hnone, Option.none_or]
        have hpred : (normEmail (normEmail email) == normEmail email) = true := by
          rw [normEmail_idem]
          exact beq_self_eq_true _
        rw [List.find?_cons]
        rw [hpred]
        simp [verify_password, hash_password]

/-- C6 witness: signup with "Doc@X.com" then login with "doc@x.com"
succeeds in both modes and returns the signed-up user id. -/
theorem C6_signup_then_login_witness :
    auth_login_db [⟨"u1", "Doc", "doc@x.com", "bcrypt$pw", "doctor"⟩] "doc@x.com" "pw" =
      .ok ⟨"u1", normEmail "Doc@X.com", pyLower "doctor", pyStrip "Doc"⟩ ∧
    auth_login_mem [("doc@x.com", ⟨"u1", "Doc", "doc@x.com", "bcrypt$pw", "doctor"⟩)]
        "doc@x.com" "pw" =
      .ok ⟨"u1", normEmail "Doc@X.com", pyLower "doctor", pyStrip "Doc"⟩ :=
  ⟨(C6_signup_then_login_case_insensitive [] [] "Doc" "Doc@X.com" "doc@x.com" "pw"
      "doctor" "u1" (by decide)).1
      ⟨"u1", "doc@x.com", "doctor", "Doc"⟩
      [⟨"u1", "Doc", "doc@x.com", "bcrypt$pw", "doctor"⟩] (by rfl),
   (C6_signup_then_login_case_insensitive [] [] "Doc" "Doc@X.com" "doc@x.com" "pw"
      "doctor" "u1" (by decide)).2
      ⟨"u1", "doc@x.com", "doctor", "Doc"⟩
      [("doc@x.com", ⟨"u1", "Doc", "doc@x.com", "bcrypt$pw", "doctor"⟩)] (by rfl)⟩

theorem lookup_filter_ne_none (uploadId : String) (l : List (String × String)) :
    (l.filter (fun kv => Prod.fst kv != uploadId)).lookup uploadId = none := by
  induction l with
  | nil => rfl
  | cons kv t ih =>
    obtain ⟨k, v⟩ := kv
    by_cases h : k = uploadId
    · have hb : ((k, v).1 != uploadId) = false := by
        simp [h]
      simp only [List.filter_cons, hb, Bool.false_eq_true, if_false]
      exact ih
    · have hb : ((k, v).1 != uploadId) = true := by
        simp [h]
      simp only [List.filter_cons, hb, if_true]
      have hk : (uploadId == k) = false := by
        rw [beq_eq_false_iff_ne]
        exact fun hh => h hh.symm
      simp only [List.lookup, hk]
      exact ih

theorem find_upload_path_spec (st : RecState) (uploadId path : String)
    (hmap : (st.uploadPaths.lookup uploadId).all (matchesUpload uploadId) = true)
    (h : find_upload_path st uploadId = some path) :
    path ∈ st.files ∧ matchesUpload uploadId path = true := by
  unfold find_upload_path at h
  cases hlk : st.uploadPaths.lookup uploadId with
  | none =>
    rw [hlk] at h
    dsimp only at h
    exact ⟨List.mem_of_find?_eq_some h, List.find?_some h⟩
  | some p =>
    rw [hlk] at h
    rw [hlk] at hmap
    have hmatch : matchesUpload uploadId p = true := by
      simpa [Option.all] using hmap
    dsimp only at h
    by_cases hc : st.files.contains p = true
    · rw [if_pos hc] at h
      dsimp only at h
      have hpp : p = path := by
        injection h
      subst hpp
      have hmem : p ∈ st.files := by
        simpa using hc
      exact ⟨hmem, hmatch⟩
    · rw [if_neg hc] at h
      dsimp only at h
      exact ⟨List.mem_of_find?_eq_some h, List.find?_some h⟩

/-- C8: after a successful non-stub transcription of `uploadId`, the
audio file is deleted and the in-memory path entry removed, so a
subsequent `POST /api/record/transcribe` with the same `uploadId` —
whatever the transcription dependency then does — fails with HTTP 404;
the same upload is never successfully transcribed twice.  The
hypotheses state filesystem well-formedness: no duplicate paths, the
recorded dict path (if any) follows the `upload_{id}.{suffix}` naming
of the upload endpoint, and at most one stored file matches the
identifier (uuid freshness: no reuse of the identifier by a new
upload). -/
theorem C8_transcribe_at_most_once (st : RecState) (uploadId text : String)
    (resp : TranscribeResponse) (st2 : RecState)
    (hfiles : st.files.Nodup)
    (hmap : (st.uploadPaths.lookup uploadId).all (matchesUpload uploadId) = true)
    (huniq : (st.files.filter (fun f => matchesUpload uploadId f)).length ≤ 1)
    (h : record_transcribe st uploadId (.ok text) = (.ok resp, st2)) :
    ∀ w2, (record_transcribe st2 uploadId w2).1 =
      .error (404, "Upload not found or expired") := by
  intro w2
  unfold record_transcribe at h
  cases hfind : find_upload_path st uploadId with
  | none =>
    rw [hfind] at h
    dsimp only at h
    exact absurd (congrArg Prod.fst h) (by simp)
  | some path =>
    rw [hfind] at h
    dsimp only at h
    have hst2 : st2 = ⟨st.uploadPaths.filter (fun kv => Prod.fst kv != uploadId),
        st.files.erase path⟩ := by
      have := congrArg Prod.snd h
      simpa using this.symm
    obtain ⟨hpathmem, hpathmatch⟩ := find_upload_path_spec st uploadId path hmap hfind
    have hnofind : (st.files.erase path).find?
        (fun f => matchesUpload uploadId f) = none := by
      rw [List.find?_eq_none]
      intro f hf hmatch
      have hfmem : f ∈ st.files := List.mem_of_mem_erase hf
      have hfne : f ≠ path := ((hfiles.mem_erase_iff).mp hf).1
      have hmf : f ∈ st.files.filter (fun f => matchesUpload uploadId f) :=
        List.mem_filter.mpr ⟨hfmem, hmatch⟩
      have hmp : path ∈ st.files.filter (fun f => matchesUpload uploadId f) :=
        List.mem_filter.mpr ⟨hpathmem, hpathmatch⟩
      cases hfl : st.files.filter (fun f => matchesUpload uploadId f) with
      | nil =>
        rw [hfl] at hmp
        cases hmp
      | cons x xs =>
        rw [hfl] at hmf hmp huniq
        have hxs : xs = [] := by
          simp only [List.length_cons] at huniq
          have : xs.length = 0 := by omega
          exact List.eq_nil_of_length_eq_zero this
        subst hxs
        have h1 : f = x := List.mem_singleton.mp hmf
        have h2 : path = x := List.mem_singleton.mp hmp
        exact hfne (h1.trans h2.symm)
    have hfind2 : find_upload_path st2 uploadId = none := by
      unfold find_upload_path
      rw [hst2]
      dsimp only
      rw [lookup_filter_ne_none]
      exact hnofind
    unfold record_transcribe
    rw [hfind2]

/-- C8 witness: a single stored upload is transcribed once, after which
retrying the same identifier yields 404. -/
theorem C8_transcribe_at_most_once_witness :
    (record_transcribe ⟨[], []⟩ "u1" (.ok "again")).1 =
      .error (404, "Upload not found or expired") :=
  C8_transcribe_at_most_once
    ⟨[("u1", "upload_u1.webm")], ["upload_u1.webm"]⟩ "u1" "hello"
    ⟨"hello", "u1", false⟩ ⟨[], []⟩
    (by decide) (by decide) (by decide) (by rfl) (.ok "again")

/-- C9: for `GET /api/patient/{patient_id}` with a patient-role token,
the request is rejected with HTTP 403 (before any data access, leaving
the store untouched) whenever the token subject differs from the
requested patient id, and when the subject equals the requested id the
ownership check does not reject: the in-memory branch returns a
dashboard.  The durable-store branch runs the identical gate before
touching the database. -/
theorem C9_patient_ownership_gate (st : MemStore) (user : TokenPayload) (pid : String) :
    (user.role = "patient" → user.sub ≠ pid →
      patient_get_mem st user pid = (.error (403, "Can only view own dashboard"), st)) ∧
    (user.sub = pid → ∃ dash st2, patient_get_mem st user pid = (.ok dash, st2)) := by
  constructor
  · intro h1 h2
    unfold patient_get_mem
    have hc : (user.role == "patient" && user.sub != pid) = true := by
      simp [h1, h2]
    rw [if_pos hc]
  · intro h2
    unfold patient_get_mem
    have hc : (user.role == "patient" && user.sub != pid) = false := by
      simp [h2]
    rw [if_neg (by simp [hc])]
    dsimp only
    cases hh : (st.diagnoses.filter (fun d => d.patient_id == pid)).head? with
    | none =>
      exact ⟨_, _, rfl⟩
    | some latest =>
      exact ⟨_, _, rfl⟩

/-- C9 witness: the gate theorem at a concrete patient token, once for
a foreign patient id (403) and once for the token's own id (success). -/
theorem C9_patient_ownership_gate_witness :
    patient_get_mem ⟨[], [], []⟩ ⟨"p1", "p@x.com", "patient", "Pat"⟩ "p2" =
      (.error (403, "Can only view own dashboard"), ⟨[], [], []⟩) ∧
    ∃ dash st2, patient_get_mem ⟨[], [], []⟩ ⟨"p1", "p@x.com", "patient", "Pat"⟩ "p1" =
      (.ok dash, st2) :=
  ⟨(C9_patient_ownership_gate ⟨[], [], []⟩ ⟨"p1", "p@x.com", "patient", "Pat"⟩ "p2").1
      rfl (by decide),
   (C9_patient_ownership_gate ⟨[], [], []⟩ ⟨"p1", "p@x.com", "patient", "Pat"⟩ "p1").2 rfl⟩
